import Mathlib

/-!
Verification of the promptline-rust agent core (src/src/agent/mod.rs).

Strings are modelled as `List Char` (Rust byte indices coincide with char
indices on the ASCII inputs relevant here, and the order of indices — the
only thing the slicing panic condition depends on — is preserved in
general).  External collaborators (the language model, the safety
validator, the permission prompt, the tool registry, and serde_json's
`Display` serializer) are abstract fields of an `Env` record; serde_json's
`from_str` is given a concrete executable model (`jsonParse`) so that
end-to-end runs compute.  Fallible Rust code (`Result`, slicing panics)
is modelled with `Except`.
-/

namespace Promptline

/-- A JSON value, modelling `serde_json::Value` (numbers restricted to
integers, which covers every value occurring in this development). -/
inductive Json where
  | null
  | bool (b : Bool)
  | num (n : Int)
  | str (s : List Char)
  | arr (xs : List Json)
  | obj (fields : List (List Char × Json))

/-- Association-list lookup used by `Json.getField`; models
`serde_json::Value::get` on an object (first matching key). -/
def lookupField : List (List Char × Json) → List Char → Option Json
  | [], _ => none
  | (k, v) :: rest, key => if k = key then some v else lookupField rest key

/-- Models `value.get(key)`: field lookup on an object, `None` otherwise. -/
def Json.getField : Json → List Char → Option Json
  | Json.obj fields, key => lookupField fields key
  | _, _ => none

/-- `value.as_str()`: the payload of a string value. -/
def Json.asStr : Json → Option (List Char)
  | Json.str s => some s
  | _ => none

/-- serde_json whitespace: space, tab, newline, carriage return. -/
def skipWs : List Char → List Char
  | [] => []
  | c :: rest =>
    if c = ' ' ∨ c = '\t' ∨ c = '\n' ∨ c = '\r' then skipWs rest else c :: rest

/-- JSON string escape codes (the subset \x22 \x5c / n t r b f). -/
def unescapeChar (c : Char) : Option Char :=
  if c = '\x22' then some '\x22'
  else if c = '\x5c' then some '\x5c'
  else if c = '/' then some '/'
  else if c = 'n' then some '\n'
  else if c = 't' then some '\t'
  else if c = 'r' then some '\r'
  else if c = 'b' then some (Char.ofNat 8)
  else if c = 'f' then some (Char.ofNat 12)
  else none

/-- Parse the body of a JSON string after the opening quote; returns the
decoded characters and the remaining input after the closing quote. -/
def parseStringBody : List Char → Option (List Char × List Char)
  | [] => none
  | c :: rest =>
    if c = '\x22' then some ([], rest)
    else if c = '\x5c' then
      match rest with
      | [] => none
      | e :: rest2 =>
        match unescapeChar e with
        | none => none
        | some ch =>
          match parseStringBody rest2 with
          | some (s, r) => some (ch :: s, r)
          | none => none
    else
      match parseStringBody rest with
      | some (s, r) => some (c :: s, r)
      | none => none

/-- Consume a run of decimal digits, accumulating their value. -/
def parseDigits : List Char → Nat → Nat × List Char
  | c :: rest, acc =>
    if c.isDigit then parseDigits rest (acc * 10 + (c.toNat - 48)) else (c :: rest, acc).swap
  | [], acc => ([], acc).swap

/-- Parse an integer JSON number (rejecting floats and exponents, which do
not occur in this development). -/
def parseNum : List Char → Option (Int × List Char) :=
  fun cs =>
    let core : List Char → Option (Nat × List Char) := fun ds =>
      match ds with
      | d :: _ =>
        if d.isDigit then
          let (n, rest) := parseDigits ds 0
          match rest with
          | e :: _ => if e = '.' ∨ e = 'e' ∨ e = 'E' then none else some (n, rest)
          | [] => some (n, rest)
        else none
      | [] => none
    match cs with
    | '-' :: rest =>
      match core rest with
      | some (n, r) => some (-(n : Int), r)
      | none => none
    | _ =>
      match core cs with
      | some (n, r) => some ((n : Int), r)
      | none => none

/-- Parsing mode of `parseAux`: a single value, the members of an object
after the opening brace, or the elements of an array. -/
inductive PMode where
  | value
  | members
  | elems

/-- Result of one `parseAux` call, tagged by mode. -/
inductive POut where
  | val (j : Json)
  | fields (fs : List (List Char × Json))
  | items (xs : List Json)

/-- Fuel-indexed recursive-descent JSON parser; executable model of the
external `serde_json::from_str`.  Fuel decreases on every recursive call
and `2 * length + 2` always suffices. -/
def parseAux : Nat → PMode → List Char → Option (POut × List Char)
  | 0, _, _ => none
  | fuel + 1, PMode.value, cs =>
    match skipWs cs with
    | [] => none
    | c :: rest =>
      if c = '\x7b' then
        match skipWs rest with
        | '\x7d' :: rest2 => some (POut.val (Json.obj []), rest2)
        | rest2 =>
          match parseAux fuel PMode.members rest2 with
          | some (POut.fields fs, rest3) => some (POut.val (Json.obj fs), rest3)
          | _ => none
      else if c = '[' then
        match skipWs rest with
        | ']' :: rest2 => some (POut.val (Json.arr []), rest2)
        | rest2 =>
          match parseAux fuel PMode.elems rest2 with
          | some (POut.items xs, rest3) => some (POut.val (Json.arr xs), rest3)
          | _ => none
      else if c = '\x22' then
        match parseStringBody rest with
        | some (s, rest2) => some (POut.val (Json.str s), rest2)
        | none => none
      else if c = 't' then
        match rest with
        | 'r' :: 'u' :: 'e' :: rest2 => some (POut.val (Json.bool true), rest2)
        | _ => none
      else if c = 'f' then
        match rest with
        | 'a' :: 'l' :: 's' :: 'e' :: rest2 => some (POut.val (Json.bool false), rest2)
        | _ => none
      else if c = 'n' then
        match rest with
        | 'u' :: 'l' :: 'l' :: rest2 => some (POut.val Json.null, rest2)
        | _ => none
      else
        match parseNum (c :: rest) with
        | some (n, rest2) => some (POut.val (Json.num n), rest2)
        | none => none
  | fuel + 1, PMode.members, cs =>
    match skipWs cs with
    | '\x22' :: rest =>
      match parseStringBody rest with
      | none => none
      | some (key, rest2) =>
        match skipWs rest2 with
        | ':' :: rest3 =>
          match parseAux fuel PMode.value rest3 with
          | some (POut.val v, rest4) =>
            match skipWs rest4 with
            | ',' :: rest5 =>
              match parseAux fuel PMode.members rest5 with
              | some (POut.fields fs, rest6) => some (POut.fields ((key, v) :: fs), rest6)
              | _ => none
            | '\x7d' :: rest5 => some (POut.fields [(key, v)], rest5)
            | _ => none
          | _ => none
        | _ => none
    | _ => none
  | fuel + 1, PMode.elems, cs =>
    match parseAux fuel PMode.value cs with
    | some (POut.val v, rest) =>
      match skipWs rest with
      | ',' :: rest2 =>
        match parseAux fuel PMode.elems rest2 with
        | some (POut.items xs, rest3) => some (POut.items (v :: xs), rest3)
        | _ => none
      | ']' :: rest2 => some (POut.items [v], rest2)
      | _ => none
    | _ => none

/-- Executable model of `serde_json::from_str::<serde_json::Value>`:
parse one value and require only whitespace to remain. -/
def jsonParse (cs : List Char) : Option Json :=
  match parseAux (2 * cs.length + 2) PMode.value cs with
  | some (POut.val v, rest) => if skipWs rest = [] then some v else none
  | _ => none

/-- `startsWith p cs`: `cs` begins with `p` (models `str::starts_with`). -/
def startsWith : List Char → List Char → Bool
  | [], _ => true
  | _ :: _, [] => false
  | p :: ps, c :: cs => p == c && startsWith ps cs

/-- `endsWith p cs`: `cs` ends with `p` (models `str::ends_with`). -/
def endsWith (p cs : List Char) : Bool :=
  startsWith p.reverse cs.reverse

/-- `containsStr needle hay`: `needle` occurs as a contiguous substring of
`hay` (models `str::contains`). -/
def containsStr (needle : List Char) : List Char → Bool
  | [] => startsWith needle []
  | c :: rest => startsWith needle (c :: rest) || containsStr needle rest

/-- Models `str::trim` (`Char.isWhitespace` is the ASCII fragment of
Rust's Unicode `char::is_whitespace`; the claims are insensitive to the
difference). -/
def rustTrim (cs : List Char) : List Char :=
  ((cs.dropWhile Char.isWhitespace).reverse.dropWhile Char.isWhitespace).reverse

/-- Index of the first occurrence of `c` (models `str::find`). -/
def findChar : List Char → Char → Option Nat
  | [], _ => none
  | a :: rest, c =>
    if a = c then some 0 else (findChar rest c).map (fun i => i + 1)

/-- Index of the last occurrence of `c` (models `str::rfind`). -/
def rfindChar (cs : List Char) (c : Char) : Option Nat :=
  (findChar cs.reverse c).map (fun i => cs.length - 1 - i)

/-- Models the Rust inclusive slice `&content[start..=fin]`: panics
(modelled as `Except.error`) when `start > fin + 1` or the end is out of
bounds, exactly the conditions under which `str` slicing panics. -/
def sliceInclusive (cs : List Char) (start fin : Nat) : Except (List Char) (List Char) :=
  if start > fin + 1 then Except.error (("slice start exceeds end").toList)
  else if fin + 1 > cs.length then Except.error (("slice end out of bounds").toList)
  else Except.ok ((cs.drop start).take (fin + 1 - start))

/-- A proposed action extracted from one model response (Rust struct
`ParsedToolCall { name, args }`). -/
structure ParsedToolCall where
  name : List Char
  args : Json

/-- Embedding of `Agent::parse_tool_call` (src/src/agent/mod.rs:358-374),
parameterised by the external JSON parser `jp`.  Finds the first `{` and
the last `}`, slices inclusively (a slip in the source makes this slice
panic when the last `}` precedes the first `{` by at least two — modelled
by the `Except.error` branch), attempts exactly one parse, and requires a
string field `tool` and a field `args`. -/
def parse_tool_call (jp : List Char → Option Json) (content : List Char) :
    Except (List Char) (Option ParsedToolCall) :=
  match findChar content '\x7b' with
  | none => Except.ok none
  | some start =>
    match rfindChar content '\x7d' with
    | none => Except.ok none
    | some fin =>
      match sliceInclusive content start fin with
      | Except.error m => Except.error m
      | Except.ok json_str =>
        match jp json_str with
        | none => Except.ok none
        | some value =>
          match Json.getField value (("tool").toList), Json.getField value (("args").toList) with
          | some tv, some args =>
            match tv.asStr with
            | some name => Except.ok (some { name := name, args := args })
            | none => Except.ok none
          | _, _ => Except.ok none

/-- Embedding of `Agent::is_complete` (src/src/agent/mod.rs:376-378):
`content.trim().ends_with("FINISH") || content.contains("task is complete")`. -/
def is_complete (content : List Char) : Bool :=
  endsWith (("FINISH").toList) (rustTrim content) || containsStr (("task is complete").toList) content

/-- Modelled from the spec: the permission states of the permissions
module, which is not under src/ ("Per-capability state machine with four
states: Never (terminal deny), Always (terminal allow), Once (allow
exactly the current invocation, then revert to Ask), Ask (must
escalate)"). -/
inductive PermissionLevel where
  | never
  | always
  | once
  | ask

/-- Modelled from the spec: the permission manager's per-capability
decision state, keyed by capability name (the permissions module is not
under src/; src/src/commands.rs shows the default for a capability with
no stored decision is to prompt, i.e. `ask`). -/
def PM := List (List Char × PermissionLevel)

/-- Store a decision for a capability name. -/
def setPerm (pm : PM) (name : List Char) (l : PermissionLevel) : PM :=
  (name, l) :: pm

/-- Current stored decision for a name, defaulting to `ask`. -/
def lookupPerm : PM → List Char → PermissionLevel
  | [], _ => PermissionLevel.ask
  | (k, l) :: rest, name => if k = name then l else lookupPerm rest name

/-- Modelled from the spec: `PermissionManager::check_permission` (the
permissions module is not under src/).  Returns the current state;
a `once` state allows exactly the current invocation and then reverts to
`ask`. -/
def check_permission (pm : PM) (name : List Char) : PermissionLevel × PM :=
  match lookupPerm pm name with
  | PermissionLevel.once => (PermissionLevel.once, setPerm pm name PermissionLevel.ask)
  | l => (l, pm)

/-- Modelled from the spec: the reply to an interactive permission
escalation — Always/Once/Never as selected, or a one-time decline. -/
inductive PromptReply where
  | always
  | once
  | never
  | decline

/-- Whether a reply allows the current invocation (the boolean that
`prompt_for_permission` returns to the agent loop). -/
def PromptReply.allowed : PromptReply → Bool
  | PromptReply.always => true
  | PromptReply.once => true
  | PromptReply.never => false
  | PromptReply.decline => false

/-- Modelled from the spec: the permission-state transition on an
interactive reply — "transitions state according to the reply —
Always/Once/Never as selected, or remains Ask on a one-time decline". -/
def applyReply (pm : PM) (name : List Char) : PromptReply → PM
  | PromptReply.always => setPerm pm name PermissionLevel.always
  | PromptReply.once => setPerm pm name PermissionLevel.once
  | PromptReply.never => setPerm pm name PermissionLevel.never
  | PromptReply.decline => pm

/-- Modelled from the spec: the safety validator's outcome type (the
safety module is not under src/): Allowed, RequiresApproval, or
Denied(reason). -/
inductive ValidationResult where
  | allowed
  | requiresApproval
  | denied (reason : List Char)

/-- Result of one capability execution (`ToolResult` of the tools module:
the fields the agent loop reads — success, output, optional error). -/
structure ToolResult where
  success : Bool
  output : List Char
  error : Option (List Char)

/-- The error channel of `run` (the `Err` side of the Rust `Result`):
`AgentError::MaxIterationsExceeded`, `ToolError::PermissionDenied`,
`PromptLineError::Safety(reason)`, a registry execution error, and a
process panic (which the Rust code does not catch at all; modelled on the
same channel so that it is visibly not a returned `AgentResult`). -/
inductive AgentError where
  | maxIterationsExceeded
  | permissionDenied (name : List Char)
  | safety (reason : List Char)
  | toolError (msg : List Char)
  | panicked (msg : List Char)

/-- Agent execution result (`AgentResult`, src/src/agent/mod.rs:30-36). -/
structure AgentResult where
  success : Bool
  output : List Char
  iterations : Nat
  tool_calls : List (List Char)

/-- Conversation message roles. -/
inductive Role where
  | system
  | user
  | assistant

/-- A conversation message. -/
structure Message where
  role : Role
  content : List Char

/-- `Message::system`. -/
def Message.mkSystem (c : List Char) : Message := { role := Role.system, content := c }

/-- `Message::user`. -/
def Message.mkUser (c : List Char) : Message := { role := Role.user, content := c }

/-- `Message::assistant`. -/
def Message.mkAssistant (c : List Char) : Message := { role := Role.assistant, content := c }

/-- The external collaborators of the agent loop, abstract exactly where
the code is outside src/: the model (`chat`, indexed by the number of
previous calls), serde_json's parser `jp` and `Display` serializer
`render`, the safety validator `validate`, the interactive permission
prompt, and the tool registry's `execute` (whose `Err` is fatal). -/
structure Env where
  chat : Nat → List Char
  jp : List Char → Option Json
  render : Json → List Char
  validate : List Char → ValidationResult
  prompt : List Char → PromptReply
  execTool : List Char → Json → Except (List Char) ToolResult

/-- The mutable state of one `run`: the iteration counter, the number of
model calls made so far (ghost instrumentation: it equals the number of
`chat` invocations), the conversation history, the permission-manager
state, and the `tool_calls` vector. -/
structure LoopState where
  iterationCount : Nat
  chatCalls : Nat
  history : List Message
  pm : PM
  tool_calls : List (List Char)

/-- The command string validated by the safety gate:
`format!("{} {}", tool_call.name, tool_call.args)`
(src/src/agent/mod.rs:160). -/
def command_str (env : Env) (tc : ParsedToolCall) : List Char :=
  tc.name ++ (' ' :: env.render tc.args)

/-- Tail of `execute_tool_call` after the permission gate
(src/src/agent/mod.rs:159-221): safety validation on the command string,
push of the name onto `tool_calls`, registry execution, and the
observation appended to history as an assistant message. -/
def gateAndExecute (env : Env) (tc : ParsedToolCall) (st : LoopState) :
    (Except AgentError AgentResult) × LoopState :=
  match env.validate (command_str env tc) with
  | ValidationResult.denied reason => (Except.error (AgentError.safety reason), st)
  | _ =>
    let st1 := { st with tool_calls := st.tool_calls ++ [tc.name] }
    match env.execTool tc.name tc.args with
    | Except.error m => (Except.error (AgentError.toolError m), st1)
    | Except.ok result =>
      let result_text := if result.success then result.output else result.error.getD result.output
      let observation :=
        ("Tool \x27").toList ++ tc.name ++ (("\x27 result: ").toList ++ result_text)
      let st2 := { st1 with history := st1.history ++ [Message.mkAssistant observation] }
      (Except.ok { success := true, output := [], iterations := st2.iterationCount,
                   tool_calls := st2.tool_calls }, st2)

/-- Embedding of `Agent::execute_tool_call` (src/src/agent/mod.rs:130-221):
permission gate (`Never` raises `PermissionDenied`; `Ask` escalates
interactively, a decline returning an `AgentResult` with
`success = false` and output "Permission denied."; `Once`/`Always` fall
through), then `gateAndExecute`.  The second component is the updated
agent state. -/
def execute_tool_call (env : Env) (tc : ParsedToolCall) (st : LoopState) :
    (Except AgentError AgentResult) × LoopState :=
  match check_permission st.pm tc.name with
  | (PermissionLevel.never, pm1) =>
    (Except.error (AgentError.permissionDenied tc.name), { st with pm := pm1 })
  | (PermissionLevel.ask, pm1) =>
    let reply := env.prompt tc.name
    let st2 := { st with pm := applyReply pm1 tc.name reply }
    if reply.allowed then gateAndExecute env tc st2
    else
      (Except.ok { success := false, output := ("Permission denied.").toList,
                   iterations := st.iterationCount, tool_calls := st.tool_calls }, st2)
  | (_, pm1) => gateAndExecute env tc { st with pm := pm1 }

/-- Embedding of the ReACT loop body of `Agent::run`
(src/src/agent/mod.rs:81-127), with fuel for termination: increment the
iteration counter, abort on budget overrun (before any model call),
request a model response, test completion, otherwise parse and execute a
proposed action (a no-`AgentResult` panic from parsing propagates on the
error channel), append the raw text when no action is found.  With fuel
`maxIter + 1 - iterationCount` the `0` branch is unreachable. -/
def runLoop (env : Env) (maxIter : Nat) : Nat → LoopState → (Except AgentError AgentResult) × LoopState
  | 0, st => (Except.error AgentError.maxIterationsExceeded, st)
  | fuel + 1, st =>
    let st1 := { st with iterationCount := st.iterationCount + 1 }
    if st1.iterationCount > maxIter then (Except.error AgentError.maxIterationsExceeded, st1)
    else
      let response := env.chat st1.chatCalls
      let st2 := { st1 with chatCalls := st1.chatCalls + 1 }
      if is_complete response then
        (Except.ok { success := true, output := response, iterations := st2.iterationCount,
                     tool_calls := st2.tool_calls }, st2)
      else
        match parse_tool_call env.jp response with
        | Except.error m => (Except.error (AgentError.panicked m), st2)
        | Except.ok none =>
          runLoop env maxIter fuel { st2 with history := st2.history ++ [Message.mkAssistant response] }
        | Except.ok (some tc) =>
          match execute_tool_call env tc st2 with
          | (Except.error e, st3) => (Except.error e, st3)
          | (Except.ok result, st3) =>
            if result.success then runLoop env maxIter fuel st3 else (Except.ok result, st3)

/-- Embedding of `Agent::run` (src/src/agent/mod.rs:64-128): reset the
iteration counter, append the system prompt and the user task to the
conversation history carried over from construction, and enter the loop.
The second component is the final agent state (ghost observation). -/
def run (env : Env) (maxIter : Nat) (pm0 : PM) (hist0 : List Message)
    (systemPrompt task : List Char) : (Except AgentError AgentResult) × LoopState :=
  runLoop env maxIter (maxIter + 1)
    { iterationCount := 0, chatCalls := 0,
      history := hist0 ++ [Message.mkSystem systemPrompt, Message.mkUser task],
      pm := pm0, tool_calls := [] }

/-- Model of the serde `Serialize` derive for `AgentResult` at the
JSON-value level: the struct becomes an object with its four fields. -/
def encodeAgentResult (r : AgentResult) : Json :=
  Json.obj [ ((("success").toList), Json.bool r.success),
             ((("output").toList), Json.str r.output),
             ((("iterations").toList), Json.num (Int.ofNat r.iterations)),
             ((("tool_calls").toList), Json.arr (r.tool_calls.map Json.str)) ]

/-- Decode a JSON array of strings. -/
def decodeStrList : List Json → Option (List (List Char))
  | [] => some []
  | Json.str s :: rest => (decodeStrList rest).map (fun l => s :: l)
  | _ => none

/-- Model of the serde `Deserialize` derive for `AgentResult` at the
JSON-value level: field lookup by name with type checks (`iterations` is
a `usize`, so negative numbers are rejected). -/
def decodeAgentResult (j : Json) : Option AgentResult :=
  match Json.getField j (("success").toList), Json.getField j (("output").toList),
        Json.getField j (("iterations").toList), Json.getField j (("tool_calls").toList) with
  | some (Json.bool s), some (Json.str o), some (Json.num n), some (Json.arr ts) =>
    if n < 0 then none
    else
      match decodeStrList ts with
      | some l => some { success := s, output := o, iterations := n.toNat, tool_calls := l }
      | none => none
  | _, _, _, _ => none

/-- The first model response of the spec's concrete scenario (§8). -/
def response9a : List Char :=
  ("I will list files. \x7b\x22tool\x22:\x22file_list\x22,\x22args\x22:\x7b\x7d\x7d").toList

/-- Concrete environment for the spec's concrete scenario: the model
answers the tool-call response then FINISH, the validator allows, the
registry execution succeeds. -/
def env9 : Env :=
  { chat := fun i => if i = 0 then response9a else ("FINISH").toList,
    jp := jsonParse,
    render := fun _ => [],
    validate := fun _ => ValidationResult.allowed,
    prompt := fun _ => PromptReply.decline,
    execTool := fun _ _ => Except.ok { success := true, output := ("file1.txt").toList, error := none } }

/-- Permission state with `file_list` allowed (approval disabled). -/
def pm9 : PM := [((("file_list").toList), PermissionLevel.always)]

/-- A bare tool-call model response. -/
def response1 : List Char :=
  ("\x7b\x22tool\x22:\x22file_list\x22,\x22args\x22:\x7b\x7d\x7d").toList

/-- Environment whose model always proposes `file_list`. -/
def env1 : Env :=
  { chat := fun _ => response1,
    jp := jsonParse,
    render := fun _ => [],
    validate := fun _ => ValidationResult.allowed,
    prompt := fun _ => PromptReply.decline,
    execTool := fun _ _ => Except.ok { success := true, output := [], error := none } }

/-- Permission state with `file_list` in the Never state. -/
def pm1 : PM := [((("file_list").toList), PermissionLevel.never)]

/-- Environment whose model never completes and never proposes an action. -/
def env2 : Env :=
  { chat := fun _ => ("thinking").toList,
    jp := jsonParse,
    render := fun _ => [],
    validate := fun _ => ValidationResult.allowed,
    prompt := fun _ => PromptReply.decline,
    execTool := fun _ _ => Except.ok { success := true, output := [], error := none } }

/-- Environment with a denying validator and a declining prompt. -/
def envA : Env :=
  { chat := fun _ => [],
    jp := jsonParse,
    render := fun _ => [],
    validate := fun _ => ValidationResult.denied (("nope").toList),
    prompt := fun _ => PromptReply.decline,
    execTool := fun _ _ => Except.ok { success := true, output := [], error := none } }

/-- A proposed `shell` action. -/
def tcA : ParsedToolCall := { name := ("shell").toList, args := Json.obj [] }

/-- Mid-run state with `shell` in the Never state. -/
def stA : LoopState :=
  { iterationCount := 3, chatCalls := 3, history := [],
    pm := [((("shell").toList), PermissionLevel.never)], tool_calls := [] }

/-- Mid-run state with no stored permission (Ask by default). -/
def stB : LoopState :=
  { iterationCount := 3, chatCalls := 3, history := [], pm := [], tool_calls := [] }

/-- Mid-run state with `shell` in the Always state. -/
def stC : LoopState :=
  { iterationCount := 3, chatCalls := 3, history := [],
    pm := [((("shell").toList), PermissionLevel.always)], tool_calls := [] }

/-- Environment with an allowing validator and a succeeding registry,
whose prompt declines. -/
def envO : Env :=
  { chat := fun _ => [],
    jp := jsonParse,
    render := fun _ => [],
    validate := fun _ => ValidationResult.allowed,
    prompt := fun _ => PromptReply.decline,
    execTool := fun _ _ => Except.ok { success := true, output := ("ok").toList, error := none } }

/-- A proposed `file_list` action. -/
def tcO : ParsedToolCall := { name := ("file_list").toList, args := Json.obj [] }

/-- Mid-run state with `file_list` in the Once state. -/
def stO : LoopState :=
  { iterationCount := 1, chatCalls := 1, history := [],
    pm := [((("file_list").toList), PermissionLevel.once)], tool_calls := [] }

/-- The registry result returned by `envO`. -/
def trO : ToolResult := { success := true, output := ("ok").toList, error := none }

/-- Environment whose safety validator denies with reason "dangerous". -/
def envD : Env :=
  { chat := fun _ => [],
    jp := jsonParse,
    render := fun _ => [],
    validate := fun _ => ValidationResult.denied (("dangerous").toList),
    prompt := fun _ => PromptReply.decline,
    execTool := fun _ _ => Except.ok { success := true, output := [], error := none } }

/-- A proposed `shell` action for the validation-gate witness. -/
def tcD : ParsedToolCall := { name := ("shell").toList, args := Json.obj [] }

/-- Mid-run state with `shell` in the Always state. -/
def stD : LoopState :=
  { iterationCount := 2, chatCalls := 2, history := [],
    pm := [((("shell").toList), PermissionLevel.always)], tool_calls := [] }

/-- A model response proposing `fail_tool`. -/
def response5 : List Char :=
  ("run it \x7b\x22tool\x22:\x22fail_tool\x22,\x22args\x22:\x7b\x7d\x7d").toList

/-- Environment whose registry execution reports failure
(`success = false` with an error message) without raising. -/
def env5 : Env :=
  { chat := fun i => if i = 0 then response5 else ("FINISH").toList,
    jp := jsonParse,
    render := fun _ => [],
    validate := fun _ => ValidationResult.allowed,
    prompt := fun _ => PromptReply.decline,
    execTool := fun _ _ => Except.ok { success := false, output := [], error := some (("boom").toList) } }

/-- Permission state with `fail_tool` allowed. -/
def pm5 : PM := [((("fail_tool").toList), PermissionLevel.always)]

/-- A proposed `fail_tool` action. -/
def tc5 : ParsedToolCall := { name := ("fail_tool").toList, args := Json.obj [] }

/-- Mid-run state with `fail_tool` in the Always state. -/
def stW5a : LoopState :=
  { iterationCount := 1, chatCalls := 1, history := [], pm := pm5, tool_calls := [] }

/-- Mid-run state with no stored permission (Ask by default). -/
def stW5b : LoopState :=
  { iterationCount := 1, chatCalls := 1, history := [], pm := [], tool_calls := [] }

/-- Environment whose model immediately emits the completion token. -/
def env8 : Env :=
  { chat := fun _ => ("FINISH").toList,
    jp := jsonParse,
    render := fun _ => [],
    validate := fun _ => ValidationResult.allowed,
    prompt := fun _ => PromptReply.decline,
    execTool := fun _ _ => Except.ok { success := true, output := [], error := none } }

/-- A fresh loop state. -/
def st8 : LoopState :=
  { iterationCount := 0, chatCalls := 0, history := [], pm := [], tool_calls := [] }

lemma startsWith_iff (p : List Char) : ∀ cs, startsWith p cs = true ↔ ∃ t, cs = p ++ t := by
  induction p with
  | nil => intro cs; simp [startsWith]
  | cons a ps ih =>
    intro cs
    cases cs with
    | nil => simp [startsWith]
    | cons b cs2 =>
      rw [startsWith, Bool.and_eq_true, beq_iff_eq, ih]
      constructor
      · rintro ⟨rfl, t, rfl⟩
        exact ⟨t, rfl⟩
      · rintro ⟨t, ht⟩
        rw [List.cons_append] at ht
        injection ht with h1 h2
        exact ⟨h1.symm, t, h2⟩

lemma endsWith_iff (p cs : List Char) : endsWith p cs = true ↔ ∃ s, cs = s ++ p := by
  unfold endsWith
  rw [startsWith_iff]
  constructor
  · rintro ⟨t, ht⟩
    refine ⟨t.reverse, ?_⟩
    have h2 := congrArg List.reverse ht
    simpa using h2
  · rintro ⟨s, rfl⟩
    exact ⟨s.reverse, by simp⟩

lemma containsStr_iff (n : List Char) : ∀ h, containsStr n h = true ↔ ∃ s t, h = s ++ n ++ t := by
  intro h
  induction h with
  | nil =>
    rw [containsStr, startsWith_iff]
    constructor
    · rintro ⟨t, ht⟩
      exact ⟨[], t, by simpa using ht⟩
    · rintro ⟨s, t, ht⟩
      have h2 := ht.symm
      simp only [List.append_assoc, List.append_eq_nil] at h2
      obtain ⟨hs, hn, htt⟩ := h2
      exact ⟨t, by simp [hn, htt]⟩
  | cons c rest ih =>
    rw [containsStr, Bool.or_eq_true, startsWith_iff, ih]
    constructor
    · rintro (⟨t, ht⟩ | ⟨s, t, ht⟩)
      · exact ⟨[], t, by simpa using ht⟩
      · exact ⟨c :: s, t, by simp [ht]⟩
    · rintro ⟨s, t, ht⟩
      cases s with
      | nil => exact Or.inl ⟨t, by simpa using ht⟩
      | cons a s2 =>
        rw [List.cons_append, List.cons_append] at ht
        injection ht with h1 h2
        exact Or.inr ⟨s2, t, h2⟩

/-- C7: for every response text, the completion predicate is true if and
only if the trimmed text ends with the literal completion token FINISH or
the text contains the phrase "task is complete". -/
theorem c7_completion_iff (content : List Char) :
    is_complete content = true ↔
      ((∃ s, rustTrim content = s ++ (("FINISH").toList)) ∨
       (∃ s t, content = s ++ (("task is complete").toList) ++ t)) := by
  unfold is_complete
  rw [Bool.or_eq_true, endsWith_iff, containsStr_iff]

/-- C6: the claim that `parse_tool_call` is total (any parse failure
yields "no action found" rather than an error) fails on the code: on the
input `\x7da\x7b` the first `\x7b` (index 2) lies beyond the last `\x7d`
(index 0) and the inclusive slice `content[2..=0]` panics.  This theorem
evaluates the embedded code at that failing input, for the concrete JSON
parser. -/
theorem c6_panic_on_inverted_braces :
    parse_tool_call jsonParse (("\x7da\x7b").toList) =
      Except.error (("slice start exceeds end").toList) := rfl

/-- C10: a run result round-trips through (JSON-value) serialization and
deserialization field-for-field without loss. -/
theorem c10_roundtrip (r : AgentResult) :
    decodeAgentResult (encodeAgentResult r) = some r := by
  have hl : ∀ l : List (List Char), decodeStrList (l.map Json.str) = some l := by
    intro l
    induction l with
    | nil => rfl
    | cons a t ih => simp [decodeStrList, ih]
  simp [decodeAgentResult, encodeAgentResult, Json.getField, lookupField, hl]

lemma lookup_set (pm : PM) (name : List Char) (l : PermissionLevel) :
    lookupPerm (setPerm pm name l) name = l := by
  simp [setPerm, lookupPerm]

lemma gate_pm (env : Env) (tc : ParsedToolCall) (st : LoopState) :
    (gateAndExecute env tc st).2.pm = st.pm := by
  unfold gateAndExecute
  rcases hv : env.validate (command_str env tc) with _ | _ | r
  · rcases he : env.execTool tc.name tc.args with m | tr <;> simp [he]
  · rcases he : env.execTool tc.name tc.args with m | tr <;> simp [he]
  · simp

lemma gate_prompt (env : Env) (tc : ParsedToolCall) (st : LoopState) (p : List Char → PromptReply) :
    gateAndExecute { env with prompt := p } tc st = gateAndExecute env tc st := rfl

lemma gate_denied (env : Env) (tc : ParsedToolCall) (st : LoopState) (r : List Char)
    (hv : env.validate (command_str env tc) = ValidationResult.denied r) :
    gateAndExecute env tc st = (Except.error (AgentError.safety r), st) := by
  simp [gateAndExecute, hv]

lemma gate_ok_fst (env : Env) (tc : ParsedToolCall) (st : LoopState) (tr : ToolResult)
    (hv : env.validate (command_str env tc) = ValidationResult.allowed)
    (he : env.execTool tc.name tc.args = Except.ok tr) :
    (gateAndExecute env tc st).1 =
      Except.ok { success := true, output := [], iterations := st.iterationCount,
                  tool_calls := st.tool_calls ++ [tc.name] } ∧
    (gateAndExecute env tc st).2.tool_calls = st.tool_calls ++ [tc.name] := by
  simp [gateAndExecute, hv, he]

lemma exec_never (env : Env) (tc : ParsedToolCall) (st : LoopState)
    (h : lookupPerm st.pm tc.name = PermissionLevel.never) :
    execute_tool_call env tc st = (Except.error (AgentError.permissionDenied tc.name), st) := by
  obtain ⟨ic, cc, hi, pmst, tcs⟩ := st
  simp only [lookupPerm] at h
  simp [execute_tool_call, check_permission, h]

lemma exec_ask_declined (env : Env) (tc : ParsedToolCall) (st : LoopState)
    (h : lookupPerm st.pm tc.name = PermissionLevel.ask)
    (hd : (env.prompt tc.name).allowed = false) :
    execute_tool_call env tc st =
      (Except.ok { success := false, output := ("Permission denied.").toList,
                   iterations := st.iterationCount, tool_calls := st.tool_calls },
       { st with pm := applyReply st.pm tc.name (env.prompt tc.name) }) := by
  obtain ⟨ic, cc, hi, pmst, tcs⟩ := st
  simp only [lookupPerm] at h
  simp [execute_tool_call, check_permission, h, hd]

lemma exec_ask_allowed (env : Env) (tc : ParsedToolCall) (st : LoopState)
    (h : lookupPerm st.pm tc.name = PermissionLevel.ask)
    (ha : (env.prompt tc.name).allowed = true) :
    execute_tool_call env tc st =
      gateAndExecute env tc { st with pm := applyReply st.pm tc.name (env.prompt tc.name) } := by
  obtain ⟨ic, cc, hi, pmst, tcs⟩ := st
  simp only [lookupPerm] at h
  simp [execute_tool_call, check_permission, h, ha]

lemma exec_once (env : Env) (tc : ParsedToolCall) (st : LoopState)
    (h : lookupPerm st.pm tc.name = PermissionLevel.once) :
    execute_tool_call env tc st =
      gateAndExecute env tc { st with pm := setPerm st.pm tc.name PermissionLevel.ask } := by
  obtain ⟨ic, cc, hi, pmst, tcs⟩ := st
  simp only [lookupPerm] at h
  simp [execute_tool_call, check_permission, h]

lemma exec_always (env : Env) (tc : ParsedToolCall) (st : LoopState)
    (h : lookupPerm st.pm tc.name = PermissionLevel.always) :
    execute_tool_call env tc st = gateAndExecute env tc st := by
  obtain ⟨ic, cc, hi, pmst, tcs⟩ := st
  simp only [lookupPerm] at h
  simp [execute_tool_call, check_permission, h]

/-- C1 (amended): among the three policy blocks, only the interactive
decline is returned as a failing `AgentResult` (success = false, output
"Permission denied."); a Never-state denial and a safety-validator
denial abort through the error channel, the safety error carrying the
reason verbatim. -/
theorem c1_blocked_outcomes (env : Env) (st : LoopState) (tc : ParsedToolCall) :
    (lookupPerm st.pm tc.name = PermissionLevel.never →
       execute_tool_call env tc st = (Except.error (AgentError.permissionDenied tc.name), st)) ∧
    (lookupPerm st.pm tc.name = PermissionLevel.ask →
     (env.prompt tc.name).allowed = false →
       execute_tool_call env tc st =
         (Except.ok { success := false, output := ("Permission denied.").toList,
                      iterations := st.iterationCount, tool_calls := st.tool_calls },
          { st with pm := applyReply st.pm tc.name (env.prompt tc.name) })) ∧
    (∀ reason, env.validate (command_str env tc) = ValidationResult.denied reason →
       (lookupPerm st.pm tc.name = PermissionLevel.always ∨
        lookupPerm st.pm tc.name = PermissionLevel.once ∨
        (lookupPerm st.pm tc.name = PermissionLevel.ask ∧ (env.prompt tc.name).allowed = true)) →
       (execute_tool_call env tc st).1 = Except.error (AgentError.safety reason)) := by
  refine ⟨fun h => exec_never env tc st h, fun h hd => exec_ask_declined env tc st h hd, ?_⟩
  rintro reason hv (h | h | ⟨h, ha⟩)
  · rw [exec_always env tc st h, gate_denied env tc st reason hv]
  · rw [exec_once env tc st h, gate_denied env tc _ reason hv]
  · rw [exec_ask_allowed env tc st h ha, gate_denied env tc _ reason hv]

/-- Witness for C1: all three blocked outcomes at concrete inputs. -/
theorem c1_blocked_outcomes_witness :
    execute_tool_call envA tcA stA =
      (Except.error (AgentError.permissionDenied (("shell").toList)), stA) ∧
    execute_tool_call envA tcA stB =
      (Except.ok { success := false, output := ("Permission denied.").toList,
                   iterations := 3, tool_calls := [] }, stB) ∧
    (execute_tool_call envA tcA stC).1 = Except.error (AgentError.safety (("nope").toList)) :=
  ⟨(c1_blocked_outcomes envA stA tcA).1 rfl,
   (c1_blocked_outcomes envA stB tcA).2.1 rfl rfl,
   (c1_blocked_outcomes envA stC tcA).2.2 (("nope").toList) rfl (Or.inl rfl)⟩

/-- C1 counterexample: a run in which the proposed action is blocked by a
Never-state permission denial aborts through the error channel — it does
not return a failing run result, contradicting the claim. -/
theorem c1_counterexample :
    (run env1 10 pm1 [] [] []).1 =
      Except.error (AgentError.permissionDenied (("file_list").toList)) := rfl

/-- C3: when a capability in permission state Once is invoked, the
invocation is allowed without consulting the prompt, afterwards the
stored state is Ask, and a second invocation of the same capability
escalates interactively (here: a declining reply produces the declined
result). -/
theorem c3_once_reverts (env : Env) (st : LoopState) (tc : ParsedToolCall) (tr : ToolResult)
    (h : lookupPerm st.pm tc.name = PermissionLevel.once) :
    (∀ p, execute_tool_call { env with prompt := p } tc st = execute_tool_call env tc st) ∧
    lookupPerm (execute_tool_call env tc st).2.pm tc.name = PermissionLevel.ask ∧
    (env.validate (command_str env tc) = ValidationResult.allowed →
     env.execTool tc.name tc.args = Except.ok tr →
       (execute_tool_call env tc st).1 =
         Except.ok { success := true, output := [], iterations := st.iterationCount,
                     tool_calls := st.tool_calls ++ [tc.name] }) ∧
    ((env.prompt tc.name).allowed = false →
       (execute_tool_call env tc ((execute_tool_call env tc st).2)).1 =
         Except.ok { success := false, output := ("Permission denied.").toList,
                     iterations := ((execute_tool_call env tc st).2).iterationCount,
                     tool_calls := ((execute_tool_call env tc st).2).tool_calls }) := by
  have hpm : (execute_tool_call env tc st).2.pm = setPerm st.pm tc.name PermissionLevel.ask := by
    rw [exec_once env tc st h, gate_pm]
  refine ⟨?_, ?_, ?_, ?_⟩
  · intro p
    rw [exec_once _ tc st h, exec_once env tc st h, gate_prompt]
  · rw [hpm]
    exact lookup_set st.pm tc.name PermissionLevel.ask
  · intro hv he
    rw [exec_once env tc st h]
    exact (gate_ok_fst env tc _ tr hv he).1
  · intro hd
    have h2 : lookupPerm ((execute_tool_call env tc st).2).pm tc.name = PermissionLevel.ask := by
      rw [hpm]; exact lookup_set st.pm tc.name PermissionLevel.ask
    rw [exec_ask_declined env tc _ h2 hd]

/-- Witness for C3 at a concrete Once-state capability. -/
theorem c3_once_reverts_witness :
    lookupPerm (execute_tool_call envO tcO stO).2.pm (("file_list").toList) = PermissionLevel.ask ∧
    (execute_tool_call envO tcO stO).1 =
      Except.ok { success := true, output := [], iterations := 1,
                  tool_calls := [(("file_list").toList)] } ∧
    (execute_tool_call envO tcO ((execute_tool_call envO tcO stO).2)).1 =
      Except.ok { success := false, output := ("Permission denied.").toList, iterations := 1,
                  tool_calls := [(("file_list").toList)] } :=
  ⟨(c3_once_reverts envO stO tcO trO rfl).2.1,
   (c3_once_reverts envO stO tcO trO rfl).2.2.1 rfl rfl,
   (c3_once_reverts envO stO tcO trO rfl).2.2.2 rfl⟩

/-- C4: a Denied outcome of the safety validator — evaluated on the
action name, a space, and the serialized arguments — makes the result
independent of the tool registry (no capability execution is consulted),
a capability in the Always state is still denied with the safety error,
and any result reporting a successful dispatch implies the validator did
not deny. -/
theorem c4_validation_gate (env : Env) (st : LoopState) (tc : ParsedToolCall) :
    (∀ reason, env.validate (command_str env tc) = ValidationResult.denied reason →
       ∀ e1 e2, execute_tool_call { env with execTool := e1 } tc st
              = execute_tool_call { env with execTool := e2 } tc st) ∧
    (∀ reason, env.validate (command_str env tc) = ValidationResult.denied reason →
       lookupPerm st.pm tc.name = PermissionLevel.always →
       execute_tool_call env tc st = (Except.error (AgentError.safety reason), st)) ∧
    (∀ r, (execute_tool_call env tc st).1 = Except.ok r → r.success = true →
       ∀ reason, env.validate (command_str env tc) ≠ ValidationResult.denied reason) := by
  refine ⟨?_, ?_, ?_⟩
  · intro reason hv e1 e2
    rcases hl : lookupPerm st.pm tc.name with _ | _ | _ | _
    · exact (exec_never _ tc st hl).trans (exec_never _ tc st hl).symm
    · exact ((exec_always { env with execTool := e1 } tc st hl).trans
        (gate_denied { env with execTool := e1 } tc st reason hv)).trans
        (((exec_always { env with execTool := e2 } tc st hl).trans
          (gate_denied { env with execTool := e2 } tc st reason hv)).symm)
    · exact ((exec_once { env with execTool := e1 } tc st hl).trans
        (gate_denied { env with execTool := e1 } tc _ reason hv)).trans
        (((exec_once { env with execTool := e2 } tc st hl).trans
          (gate_denied { env with execTool := e2 } tc _ reason hv)).symm)
    · rcases ha : (env.prompt tc.name).allowed with _ | _
      · exact (exec_ask_declined { env with execTool := e1 } tc st hl ha).trans
          (exec_ask_declined { env with execTool := e2 } tc st hl ha).symm
      · exact ((exec_ask_allowed { env with execTool := e1 } tc st hl ha).trans
          (gate_denied { env with execTool := e1 } tc _ reason hv)).trans
          (((exec_ask_allowed { env with execTool := e2 } tc st hl ha).trans
            (gate_denied { env with execTool := e2 } tc _ reason hv)).symm)
  · intro reason hv h
    rw [exec_always env tc st h, gate_denied env tc st reason hv]
  · intro r hok hs reason hv
    rcases hl : lookupPerm st.pm tc.name with _ | _ | _ | _
    · rw [exec_never env tc st hl] at hok
      simp at hok
    · rw [exec_always env tc st hl, gate_denied env tc st reason hv] at hok
      simp at hok
    · rw [exec_once env tc st hl, gate_denied env tc _ reason hv] at hok
      simp at hok
    · rcases ha : (env.prompt tc.name).allowed with _ | _
      · rw [exec_ask_declined env tc st hl ha] at hok
        simp at hok
        rw [← hok] at hs
        simp at hs
      · rw [exec_ask_allowed env tc st hl ha, gate_denied env tc _ reason hv] at hok
        simp at hok

/-- Witness for C4 at a concrete denying validator. -/
theorem c4_validation_gate_witness :
    execute_tool_call
        { envD with execTool := fun _ _ => Except.ok { success := true, output := [], error := none } }
        tcD stD
      = execute_tool_call
          { envD with execTool := fun _ _ => Except.error (("io error").toList) } tcD stD ∧
    execute_tool_call envD tcD stD =
      (Except.error (AgentError.safety (("dangerous").toList)), stD) :=
  ⟨(c4_validation_gate envD stD tcD).1 (("dangerous").toList) rfl _ _,
   (c4_validation_gate envD stD tcD).2.1 (("dangerous").toList) rfl rfl⟩

/-- C5 (amended): the `tool_calls` list gains exactly one entry, in
execution order, per action that passes the permission and safety gate
and is dispatched to the registry — regardless of whether the
capability's own result reports success; blocked actions (decline,
Never-state denial, safety denial) contribute no entry. -/
theorem c5_tool_call_entries (env : Env) (st : LoopState) (tc : ParsedToolCall) :
    (∀ r, (execute_tool_call env tc st).1 = Except.ok r →
       (r.success = true → r.tool_calls = st.tool_calls ++ [tc.name]) ∧
       (r.success = false → r.tool_calls = st.tool_calls)) ∧
    (∀ e, (execute_tool_call env tc st).1 = Except.error e →
       (e = AgentError.permissionDenied tc.name ∨ ∃ reason, e = AgentError.safety reason) →
       (execute_tool_call env tc st).2.tool_calls = st.tool_calls) := by
  have core : ∀ st2 : LoopState, st2.tool_calls = st.tool_calls →
      (∀ r, (gateAndExecute env tc st2).1 = Except.ok r →
         (r.success = true → r.tool_calls = st.tool_calls ++ [tc.name]) ∧
         (r.success = false → r.tool_calls = st.tool_calls)) ∧
      (∀ e, (gateAndExecute env tc st2).1 = Except.error e →
         (e = AgentError.permissionDenied tc.name ∨ ∃ reason, e = AgentError.safety reason) →
         (gateAndExecute env tc st2).2.tool_calls = st.tool_calls) := by
    intro st2 htc
    rcases hv : env.validate (command_str env tc) with _ | _ | reason
    · rcases he : env.execTool tc.name tc.args with m | tr
      · constructor
        · intro r hok
          simp [gateAndExecute, hv, he] at hok
        · intro e herr hshape
          simp [gateAndExecute, hv, he] at herr
          rcases hshape with h | ⟨reason, h⟩ <;> simp [h] at herr
      · constructor
        · intro r hok
          simp [gateAndExecute, hv, he] at hok
          constructor
          · intro _
            rw [← hok]
            simp [htc]
          · intro hfalse
            rw [← hok] at hfalse
            simp at hfalse
        · intro e herr hshape
          simp [gateAndExecute, hv, he] at herr
    · rcases he : env.execTool tc.name tc.args with m | tr
      · constructor
        · intro r hok
          simp [gateAndExecute, hv, he] at hok
        · intro e herr hshape
          simp [gateAndExecute, hv, he] at herr
          rcases hshape with h | ⟨reason, h⟩ <;> simp [h] at herr
      · constructor
        · intro r hok
          simp [gateAndExecute, hv, he] at hok
          constructor
          · intro _
            rw [← hok]
            simp [htc]
          · intro hfalse
            rw [← hok] at hfalse
            simp at hfalse
        · intro e herr hshape
          simp [gateAndExecute, hv, he] at herr
    · constructor
      · intro r hok
        rw [gate_denied env tc st2 reason hv] at hok
        simp at hok
      · intro e herr hshape
        rw [gate_denied env tc st2 reason hv]
        exact htc
  rcases hl : lookupPerm st.pm tc.name with _ | _ | _ | _
  · constructor
    · intro r hok
      rw [exec_never env tc st hl] at hok
      simp at hok
    · intro e herr hshape
      rw [exec_never env tc st hl]
  · rw [exec_always env tc st hl]
    exact core st rfl
  · rw [exec_once env tc st hl]
    exact core _ rfl
  · rcases ha : (env.prompt tc.name).allowed with _ | _
    · constructor
      · intro r hok
        rw [exec_ask_declined env tc st hl ha] at hok
        simp at hok
        constructor
        · intro htrue
          rw [← hok] at htrue
          simp at htrue
        · intro _
          rw [← hok]
      · intro e herr hshape
        rw [exec_ask_declined env tc st hl ha] at herr
        simp at herr
    · rw [exec_ask_allowed env tc st hl ha]
      exact core _ rfl

/-- Witness for C5: a dispatched action appends exactly its name; a
declined action appends nothing. -/
theorem c5_tool_call_entries_witness :
    ({ success := true, output := [], iterations := 1,
       tool_calls := [(("fail_tool").toList)] } : AgentResult).tool_calls
      = stW5a.tool_calls ++ [tc5.name] ∧
    ({ success := false, output := ("Permission denied.").toList, iterations := 1,
       tool_calls := [] } : AgentResult).tool_calls
      = stW5b.tool_calls :=
  ⟨((c5_tool_call_entries env5 stW5a tc5).1 _ rfl).1 rfl,
   ((c5_tool_call_entries env5 stW5b tc5).1 _ rfl).2 rfl⟩

/-- C5 counterexample: a run whose single dispatched capability reports
failure (`success = false` from the registry) still lists that capability
in `tool_calls` — the name is pushed before execution — contradicting
"one entry per successful execution". -/
theorem c5_counterexample :
    env5.execTool (("fail_tool").toList) (Json.obj []) =
      Except.ok { success := false, output := [], error := some (("boom").toList) } ∧
    (run env5 10 pm5 [] [] []).1 =
      Except.ok { success := true, output := ("FINISH").toList, iterations := 2,
                  tool_calls := [(("fail_tool").toList)] } :=
  ⟨rfl, rfl⟩

lemma runLoop_budget (env : Env) (maxIter : Nat)
    (H : ∀ i, is_complete (env.chat i) = false ∧
              parse_tool_call env.jp (env.chat i) = Except.ok none) :
    ∀ fuel st, st.iterationCount + fuel = maxIter + 1 → st.chatCalls = st.iterationCount →
      st.iterationCount ≤ maxIter →
      (runLoop env maxIter fuel st).1 = Except.error AgentError.maxIterationsExceeded ∧
      (runLoop env maxIter fuel st).2.chatCalls = maxIter := by
  intro fuel
  induction fuel with
  | zero => intro st h1 h2 h3; omega
  | succ fuel ih =>
    intro st h1 h2 h3
    have hc := H st.chatCalls
    by_cases hgt : st.iterationCount + 1 > maxIter
    · simp [runLoop, hgt]
      omega
    · simp only [runLoop, hgt, hc.1, hc.2, if_false, ite_false, if_neg hgt]
      simp [hc.1, hc.2]
      refine ih _ ?_ ?_ ?_ <;> simp <;> omega

/-- C2 (amended): for maximum iteration count N, a model that never
satisfies the completion predicate and never proposes an action causes
exactly N model chat calls — the budget check precedes each call, so the
(N+1)-th call never happens — before the run aborts with the fatal
iteration-budget-exceeded condition. -/
theorem c2_model_calls (env : Env) (maxIter : Nat) (pm0 : PM) (hist0 : List Message)
    (sp task : List Char)
    (H : ∀ i, is_complete (env.chat i) = false ∧
              parse_tool_call env.jp (env.chat i) = Except.ok none) :
    (run env maxIter pm0 hist0 sp task).1 = Except.error AgentError.maxIterationsExceeded ∧
    (run env maxIter pm0 hist0 sp task).2.chatCalls = maxIter := by
  unfold run
  exact runLoop_budget env maxIter H (maxIter + 1) _ (by simp) rfl (by simp)

/-- Witness for C2 with N = 3 and a model that always answers
"thinking". -/
theorem c2_model_calls_witness :
    (run env2 3 [] [] [] []).1 = Except.error AgentError.maxIterationsExceeded ∧
    (run env2 3 [] [] [] []).2.chatCalls = 3 :=
  c2_model_calls env2 3 [] [] [] [] (fun _ => ⟨rfl, rfl⟩)

/-- C2 counterexample: with N = 1 and a model that never completes and
never proposes an action, the run aborts with the iteration-budget
condition after exactly 1 model call, not the claimed N + 1 = 2. -/
theorem c2_counterexample :
    (run env2 1 [] [] [] []).1 = Except.error AgentError.maxIterationsExceeded ∧
    (run env2 1 [] [] [] []).2.chatCalls = 1 ∧ (1 : Nat) + 1 ≠ 1 :=
  ⟨rfl, rfl, by omega⟩

/-- C8: when a model response satisfies the completion predicate, the
loop pass returns success immediately with the response text and the
accumulated `tool_calls`, and the outcome is independent of the parser,
the serializer, the validator, the prompt, and the tool registry — the
embedded action, if any, is never parsed, permission-checked, or
executed. -/
theorem c8_complete_before_parse (env : Env) (maxIter fuel : Nat) (st : LoopState)
    (h1 : st.iterationCount + 1 ≤ maxIter)
    (h2 : is_complete (env.chat st.chatCalls) = true) :
    runLoop env maxIter (fuel + 1) st =
      (Except.ok { success := true, output := env.chat st.chatCalls,
                   iterations := st.iterationCount + 1, tool_calls := st.tool_calls },
       { st with iterationCount := st.iterationCount + 1, chatCalls := st.chatCalls + 1 }) ∧
    (∀ jp2 render2 validate2 prompt2 exec2,
       runLoop
         { env with
           jp := jp2, render := render2, validate := validate2,
           prompt := prompt2, execTool := exec2 } maxIter (fuel + 1) st =
       runLoop env maxIter (fuel + 1) st) := by
  have hgt : ¬ (st.iterationCount + 1 > maxIter) := by omega
  constructor
  · simp [runLoop, hgt, h2]
  · intro jp2 render2 validate2 prompt2 exec2
    simp [runLoop, hgt, h2]

/-- Witness for C8: an immediately completing model. -/
theorem c8_complete_before_parse_witness :
    runLoop env8 5 6 st8 =
      (Except.ok { success := true, output := ("FINISH").toList, iterations := 1,
                   tool_calls := [] },
       { st8 with iterationCount := 1, chatCalls := 1 }) ∧
    runLoop
      { env8 with
        jp := fun _ => none, render := fun _ => [],
        validate := fun _ => ValidationResult.denied [],
        prompt := fun _ => PromptReply.always,
        execTool := fun _ _ => Except.error [] } 5 6 st8 = runLoop env8 5 6 st8 :=
  ⟨(c8_complete_before_parse env8 5 5 st8 (by decide) rfl).1,
   (c8_complete_before_parse env8 5 5 st8 (by decide) rfl).2 _ _ _ _ _⟩

/-- C9: the spec's concrete scenario — the model answers
`I will list files. ...tool...file_list...args...` and then `FINISH`,
with approval disabled and `file_list` allowed — yields iterations = 2,
executed capabilities ["file_list"], success = true. -/
theorem c9_concrete_run :
    (run env9 10 pm9 [] [] []).1 =
      Except.ok { success := true, output := ("FINISH").toList, iterations := 2,
                  tool_calls := [(("file_list").toList)] } := rfl

end Promptline
